import Mathlib

/-!
Verification of the MemoryAssistant-Web local-first item store.

This development is a shallow embedding of the reconciliation core of the
repository: the IndexedDB-backed Local Store (database module, DAO-style
operations), the Firestore-backed Cloud Mirror (firestoreService.ts), the
add/edit modal item construction (AddEditItemModal.tsx), and the distance
formatting helper (locationService.ts).

Modelling conventions:
- JavaScript strings are Lean `String`; `toLowerCase` is mapped per
  character with `Char.toLower`; `includes` is a substring test on the
  character lists.
- Timestamps (milliseconds since epoch, produced by `Date.now()`) are
  `Int`; the wall clock is passed in explicitly through `SyncEnv.now`.
- JavaScript numbers used by the distance formatter are `ℚ`;
  `Math.round x` is `⌊x + 1/2⌋` (round half toward positive infinity) and
  `toFixed(1)` is rendered from `⌊x * 10 + 1/2⌋`.
- The IndexedDB object store keyed by `id` is an association list of
  Items; `put` is insert-or-replace over every entry with the same key,
  `get` is first find, `delete` is filter.  The `by-createdAt` index scan
  is an ascending stable sort by `createdAt`.
- Firestore is the per-user collection that the service addresses: an
  association list from document id to document.  Fallible remote calls
  (`setDoc`, `deleteDoc`) return `Except`, with the failure injected via
  `SyncEnv.netOk`; the authenticated identity is `SyncEnv.auth`.
- JavaScript truthiness on optional strings (where the empty string is
  falsy) is made explicit by `jsOrElseNull` and in the search predicate.
-/

namespace MemoryAssistant

/-- JavaScript per-character lowercasing, the embedding of
`String.prototype.toLowerCase` as used by the search filter. -/
def jsToLowerCase (s : String) : String :=
  ⟨s.data.map Char.toLower⟩

/-- Does `hay` start with `needle`?  Helper for the substring test. -/
def startsWithCL : List Char → List Char → Bool
  | [], _ => true
  | _ :: _, [] => false
  | a :: as, b :: bs => a == b && startsWithCL as bs

/-- Substring containment on character lists: the embedding of
`String.prototype.includes`. -/
def includesCL : List Char → List Char → Bool
  | needle, [] => needle.isEmpty
  | needle, c :: rest => startsWithCL needle (c :: rest) || includesCL needle rest

/-- `hay.includes(needle)` on Lean strings. -/
def includesStr (hay needle : String) : Bool :=
  includesCL needle.data hay.data

/-- The JavaScript idiom `s || null` on an optional string: the empty
string is falsy, so it is mapped to the absent value as well.  Used by
`syncItemToCloud` (`item.description || null`, ...) and by
`documentToItem` (`data.description || undefined`, ...). -/
def jsOrElseNull (o : Option String) : Option String :=
  match o with
  | some s => if s = "" then none else some s
  | none => none

/-- Item record (src/src/types/item.types.ts, together with the optional
media and location fields that firestoreService.ts reads from it).  Note
that the record has no `updatedAt` field. -/
structure Item where
  id : String
  name : String
  description : Option String := none
  createdAt : Int
  imageUrl : Option String := none
  labels : List String
  audioUrl : Option String := none
  audioTranscription : Option String := none
  latitude : Option ℚ := none
  longitude : Option ℚ := none
  locationName : Option String := none
deriving DecidableEq

/-- A Firestore document under `users/{userId}/items/{itemId}`, with the
exact field set that `syncItemToCloud` writes (firestoreService.ts lines
86-99).  This is the only place an `updatedAt` exists. -/
structure CloudDoc where
  id : String
  name : String
  description : Option String
  createdAt : Int
  imageUrl : Option String
  labels : List String
  audioUrl : Option String
  audioTranscription : Option String
  latitude : Option ℚ
  longitude : Option ℚ
  locationName : Option String
  updatedAt : Int
deriving DecidableEq

/-- The `itemData` object literal built inside `syncItemToCloud`
(firestoreService.ts lines 86-99): every Item field is copied (optional
strings through the `|| null` idiom), and `updatedAt` is stamped with the
current wall clock (`Date.now()`, here the explicit `now`). -/
def itemData (now : Int) (item : Item) : CloudDoc :=
  { id := item.id
    name := item.name
    description := jsOrElseNull item.description
    createdAt := item.createdAt
    imageUrl := jsOrElseNull item.imageUrl
    labels := item.labels
    audioUrl := jsOrElseNull item.audioUrl
    audioTranscription := jsOrElseNull item.audioTranscription
    latitude := item.latitude
    longitude := item.longitude
    locationName := jsOrElseNull item.locationName
    updatedAt := now }

/-- The record built by `documentToItem` (firestoreService.ts lines
188-207).  The document's `updatedAt` is dropped: the resulting Item has
no such field.  Optional strings go through the `|| undefined` idiom; the
coordinates through the explicit null/undefined ternaries. -/
def docItem (d : CloudDoc) : Item :=
  { id := d.id
    name := d.name
    description := jsOrElseNull d.description
    createdAt := d.createdAt
    imageUrl := jsOrElseNull d.imageUrl
    labels := d.labels
    audioUrl := jsOrElseNull d.audioUrl
    audioTranscription := jsOrElseNull d.audioTranscription
    latitude := d.latitude
    longitude := d.longitude
    locationName := jsOrElseNull d.locationName }

/-- `documentToItem` (firestoreService.ts lines 188-207): converts a
Firestore document to an Item, returning null when the conversion fails
(the body of the `try` cannot fail in this embedding, so the result is
always present). -/
def documentToItem (d : CloudDoc) : Option Item :=
  some (docItem d)

/-- The IndexedDB `items` object store (database module): an association
list of Items keyed by `item.id` (`keyPath: 'id'`). -/
abbrev LocalStore := List Item

/-- `db.put('items', item)`: insert-or-replace by `id` (the comment in
`addItem` spells this out: "If an item with this ID exists, it will be
replaced.  If not, it will be created"). -/
def dbPut (store : LocalStore) (item : Item) : LocalStore :=
  if store.any (fun j => j.id == item.id) then
    store.map (fun j => if j.id == item.id then item else j)
  else
    store ++ [item]

/-- `db.get('items', id)`: the stored Item, or undefined when absent. -/
def dbGet (store : LocalStore) (id : String) : Option Item :=
  store.find? (fun j => j.id == id)

/-- `db.delete('items', id)`: removes the entry when present; a no-op on
an absent key (IndexedDB delete never fails on a missing key). -/
def dbDelete (store : LocalStore) (id : String) : LocalStore :=
  store.filter (fun j => j.id != id)

/-- Ascending comparison on `createdAt`, the order of the IndexedDB
`by-createdAt` index scan. -/
def byCreatedAtAsc (a b : Item) : Bool :=
  decide (a.createdAt ≤ b.createdAt)

/-- `getAllItems` (database module lines 179-192):
`db.getAllFromIndex('items', 'by-createdAt')` returns the rows in
ascending index order (modelled as a stable ascending sort by
`createdAt`), and the result is reversed to get newest first. -/
def getAllItems (store : LocalStore) : List Item :=
  (store.mergeSort byCreatedAtAsc).reverse

/-- `getItemById` (database module lines 202-205): `db.get('items', id)`. -/
def getItemById (store : LocalStore) (id : String) : Option Item :=
  dbGet store id

/-- `searchItems` (database module lines 305-316): filters `getAllItems`
by a case-insensitive substring match on the name, or on the description
when the description is truthy (non-empty). -/
def searchItems (store : LocalStore) (query : String) : List Item :=
  let lowerQuery := jsToLowerCase query
  (getAllItems store).filter fun item =>
    includesStr (jsToLowerCase item.name) lowerQuery ||
      (match item.description with
       | some d => if d = "" then false else includesStr (jsToLowerCase d) lowerQuery
       | none => false)

/-- `getItemsByLabel` (database module lines 326-332): filters
`getAllItems` by `item.labels.includes(label)`. -/
def getItemsByLabel (store : LocalStore) (label : String) : List Item :=
  (getAllItems store).filter (fun item => item.labels.contains label)

/-- A sequence of `put` operations applied in order to a store. -/
def putAll (store : LocalStore) (items : List Item) : LocalStore :=
  items.foldl dbPut store

/-- The current authenticated user's `users/{userId}/items` collection:
an association list from document id to document. -/
abbrev CloudColl := List (String × CloudDoc)

/-- Firestore `setDoc` against a collection: upsert by document id. -/
def cloudPut (coll : CloudColl) (docId : String) (d : CloudDoc) : CloudColl :=
  if coll.any (fun p => p.1 == docId) then
    coll.map (fun p => if p.1 == docId then (docId, d) else p)
  else
    coll ++ [(docId, d)]

/-- Lookup of a document by id in the collection. -/
def cloudGet (coll : CloudColl) (docId : String) : Option CloudDoc :=
  (coll.find? (fun p => p.1 == docId)).map (fun p => p.2)

/-- Firestore `deleteDoc` against a collection: remove by document id. -/
def cloudDelete (coll : CloudColl) (docId : String) : CloudColl :=
  coll.filter (fun p => p.1 != docId)

/-- The ambient state a Cloud Mirror call runs in: the authenticated user
id (`auth.currentUser`, none when logged out), the wall clock reading
`Date.now()` would produce, and whether the remote call would succeed. -/
structure SyncEnv where
  auth : Option String
  now : Int
  netOk : Bool
deriving DecidableEq

/-- The remote `setDoc` call: succeeds with the upsert applied, or throws
(network or auth error), modelled by `netOk`. -/
def setDoc (netOk : Bool) (coll : CloudColl) (docId : String) (d : CloudDoc) :
    Except String CloudColl :=
  if netOk then .ok (cloudPut coll docId d) else .error ("network")

/-- The remote `deleteDoc` call, fallible like `setDoc`. -/
def deleteDoc (netOk : Bool) (coll : CloudColl) (docId : String) :
    Except String CloudColl :=
  if netOk then .ok (cloudDelete coll docId) else .error ("network")

/-- What a Cloud Mirror push returns to its caller: the resulting
collection and the console messages emitted. -/
structure SyncResult where
  cloud : CloudColl
  log : List String
deriving DecidableEq

/-- `syncItemToCloud` (firestoreService.ts lines 74-107).  The whole body
is inside `try`: when no user is logged in it warns and returns; when
`setDoc` throws, the `catch` logs and returns.  The `Except` result makes
"the call can surface an exception" expressible; the theorems show it
never does. -/
def syncItemToCloud (env : SyncEnv) (cloud : CloudColl) (item : Item) :
    Except String SyncResult :=
  match env.auth with
  | none => .ok { cloud := cloud, log := [("Cannot sync: User not logged in")] }
  | some _ =>
    match setDoc env.netOk cloud item.id (itemData env.now item) with
    | .ok c => .ok { cloud := c, log := [] }
    | .error e => .ok { cloud := cloud, log := [("Error syncing item to cloud: " ++ e)] }

/-- `deleteItemFromCloud` (firestoreService.ts lines 114-127): same
guard-warn-return and catch-log-return structure as `syncItemToCloud`. -/
def deleteItemFromCloud (env : SyncEnv) (cloud : CloudColl) (itemId : String) :
    Except String SyncResult :=
  match env.auth with
  | none => .ok { cloud := cloud, log := [("Cannot delete from cloud: User not logged in")] }
  | some _ =>
    match deleteDoc env.netOk cloud itemId with
    | .ok c => .ok { cloud := c, log := [] }
    | .error e => .ok { cloud := cloud, log := [("Error deleting item from cloud: " ++ e)] }

/-- What `listenToCloudChanges` produces: the returned handle (the
unsubscribe function, or null), the argument the callback is invoked with
(null when not logged in; the initial snapshot of the collection once the
listener registers), and the console messages. -/
structure ListenResult where
  handle : Option Unit
  callbackArg : Option (Option (List CloudDoc))
  log : List String
deriving DecidableEq

/-- `listenToCloudChanges` (firestoreService.ts lines 138-165): with no
user it warns, invokes the callback with null and returns null; otherwise
it registers the snapshot listener and returns the unsubscribe handle. -/
def listenToCloudChanges (env : SyncEnv) (cloud : CloudColl) : ListenResult :=
  match env.auth with
  | none =>
    { handle := none
      callbackArg := some none
      log := [("Cannot listen to cloud changes: User not logged in")] }
  | some _ =>
    { handle := some ()
      callbackArg := some (some (cloud.map (fun p => p.2)))
      log := [] }

/-- The combined client state: the Local Store and the remote per-user
collection the Cloud Mirror pushes into. -/
structure Sys where
  store : LocalStore
  cloud : CloudColl
deriving DecidableEq

/-- `addItem` (database module lines 214-229): `await db.put('items',
item)` then `await syncItemToCloud(item)`. -/
def addItem (env : SyncEnv) (s : Sys) (item : Item) : Except String Sys :=
  let store := dbPut s.store item
  (syncItemToCloud env s.cloud item).map (fun r => { store := store, cloud := r.cloud })

/-- `updateItem` (database module lines 263-270): `await db.put('items',
item)` then `await syncItemToCloud(item)` - the same two steps as
`addItem`. -/
def updateItem (env : SyncEnv) (s : Sys) (item : Item) : Except String Sys :=
  let store := dbPut s.store item
  (syncItemToCloud env s.cloud item).map (fun r => { store := store, cloud := r.cloud })

/-- `deleteItem` (database module lines 279-285): `await db.delete('items',
id)` then `await deleteItemFromCloud(id)`. -/
def deleteItem (env : SyncEnv) (s : Sys) (itemId : String) : Except String Sys :=
  let store := dbDelete s.store itemId
  (deleteItemFromCloud env s.cloud itemId).map (fun r => { store := store, cloud := r.cloud })

/-- The edit-mode item constructed by the modal submit handler
(AddEditItemModal.tsx lines 92-104): the loaded item is spread and only
`name`, `description` and `labels` are overwritten
(`description.trim() || undefined` makes the empty description absent). -/
def buildUpdatedItem (existing : Item) (name description : String)
    (labelsList : List String) : Item :=
  { existing with
    name := name.trim
    description := if description.trim = "" then none else some description.trim
    labels := labelsList }

/-- Modelled from the spec: the snapshot handler that ingests one remote
document change into the Local Store is not among the source files (the
repository ships `listenToCloudChanges` and `documentToItem`, but no
caller of either).  Per the spec, "remote changes are applied to the
Local Store unconditionally by `id` - add if new, overwrite if existing";
this definition converts the document with `documentToItem` (from the
source) and upserts the result with the store's `put` (from the source). -/
def applyRemoteChange (store : LocalStore) (d : CloudDoc) : LocalStore :=
  match documentToItem d with
  | some i => dbPut store i
  | none => store

/-- `Math.round` on a JavaScript number: round half toward positive
infinity (locationService.ts uses it for the meter and whole-kilometer
renderings). -/
def jsRound (q : ℚ) : ℤ :=
  ⌊q + 1/2⌋

/-- `x.toFixed(1)` for the one-decimal kilometer branch: the nearest
tenth (ties toward positive infinity), rendered as integer part, a dot,
and the tenths digit. -/
def toFixed1 (q : ℚ) : String :=
  toString (⌊q * 10 + 1/2⌋ / 10) ++ "." ++ toString (⌊q * 10 + 1/2⌋ % 10)

/-- `formatDistance` (locationService.ts lines 250-262): meters below
1 km, one-decimal kilometers below 10 km, whole kilometers otherwise. -/
def formatDistance (distanceKm : ℚ) : String :=
  if distanceKm < 1 then
    toString (jsRound (distanceKm * 1000)) ++ " m"
  else if distanceKm < 10 then
    toFixed1 distanceKm ++ " km"
  else
    toString (jsRound distanceKm) ++ " km"

/-- Spec-side rendering for the meters branch, following the spec wording
"display formatting switches ... meters (below 1 km)". -/
def renderMeters (d : ℚ) : String :=
  toString (jsRound (d * 1000)) ++ " m"

/-- Spec-side rendering for the one-decimal kilometers branch. -/
def renderKmOneDecimal (d : ℚ) : String :=
  toFixed1 d ++ " km"

/-- Spec-side rendering for the whole-kilometers branch. -/
def renderKmWhole (d : ℚ) : String :=
  toString (jsRound d) ++ " km"

/-- Spec-side search predicate, following the spec wording: the item
matches when its name or its description contains the query as a
case-insensitive substring. -/
def specSearchMatch (q : String) (i : Item) : Bool :=
  includesStr (jsToLowerCase i.name) (jsToLowerCase q) ||
    (match i.description with
     | some d => includesStr (jsToLowerCase d) (jsToLowerCase q)
     | none => false)

/-- Unwraps the collection out of a push result, for stating concrete
executions (the pushes in question are proven to return normally). -/
def exceptCloud (e : Except String SyncResult) : CloudColl :=
  match e with
  | .ok r => r.cloud
  | .error _ => []

/-- A put is observed by a subsequent get on the same key. -/
theorem dbGet_dbPut (store : LocalStore) (item : Item) :
    dbGet (dbPut store item) item.id = some item := by
  unfold dbPut dbGet
  by_cases h : store.any (fun j => j.id == item.id)
  · rw [if_pos h]
    induction store with
    | nil => simp at h
    | cons a t ih =>
      simp only [List.map_cons, List.find?]
      by_cases ha : a.id == item.id
      · simp [ha]
      · rw [if_neg (by simpa using ha)]
        simp only [List.find?_cons, ha, cond_false]
        simp only [List.any_cons, ha, Bool.false_or] at h
        exact ih h
  · rw [if_neg h]
    induction store with
    | nil => simp [List.find?]
    | cons a t ih =>
      simp only [List.any_cons, Bool.or_eq_true, not_or] at h
      obtain ⟨ha, ht⟩ := h
      simp only [List.cons_append]
      rw [List.find?_cons_of_neg _ (by simpa using ha)]
      exact ih (by simpa using ht)

/-- A deleted key is absent from a subsequent get. -/
theorem dbGet_dbDelete (store : LocalStore) (id : String) :
    dbGet (dbDelete store id) id = none := by
  unfold dbGet dbDelete
  rw [List.find?_eq_none]
  intro x hx
  have hmem := List.of_mem_filter hx
  simp only [bne_iff_ne, ne_eq] at hmem
  simp [hmem]

/-- A cloud upsert is observed by a subsequent lookup on the same id. -/
theorem cloudGet_cloudPut (coll : CloudColl) (docId : String) (d : CloudDoc) :
    cloudGet (cloudPut coll docId d) docId = some d := by
  unfold cloudPut cloudGet
  by_cases h : coll.any (fun p => p.1 == docId)
  · rw [if_pos h]
    induction coll with
    | nil => simp at h
    | cons a t ih =>
      simp only [List.map_cons, List.find?]
      by_cases ha : a.1 == docId
      · simp [ha]
      · rw [if_neg (by simpa using ha)]
        simp only [List.find?_cons, ha, cond_false]
        simp only [List.any_cons, ha, Bool.false_or] at h
        exact ih h
  · rw [if_neg h]
    induction coll with
    | nil => simp [List.find?]
    | cons a t ih =>
      simp only [List.any_cons, Bool.or_eq_true, not_or] at h
      obtain ⟨ha, ht⟩ := h
      simp only [List.cons_append]
      rw [List.find?_cons_of_neg _ (by simpa using ha)]
      exact ih (by simpa using ht)

/-- The catch-all in `syncItemToCloud` means the call always returns
normally, whatever the auth state and network outcome. -/
theorem syncItemToCloud_isOk (env : SyncEnv) (cloud : CloudColl) (item : Item) :
    ∃ r : SyncResult, syncItemToCloud env cloud item = .ok r := by
  rcases env with ⟨auth, now, netOk⟩
  cases auth with
  | none => exact ⟨_, rfl⟩
  | some u =>
    cases netOk with
    | false =>
      exact ⟨{ cloud := cloud, log := [("Error syncing item to cloud: network")] },
        by simp [syncItemToCloud, setDoc]⟩
    | true =>
      exact ⟨{ cloud := cloudPut cloud item.id (itemData now item), log := [] },
        by simp [syncItemToCloud, setDoc]⟩

/-- The catch-all in `deleteItemFromCloud` means the call always returns
normally, whatever the auth state and network outcome. -/
theorem deleteItemFromCloud_isOk (env : SyncEnv) (cloud : CloudColl) (itemId : String) :
    ∃ r : SyncResult, deleteItemFromCloud env cloud itemId = .ok r := by
  rcases env with ⟨auth, now, netOk⟩
  cases auth with
  | none => exact ⟨_, rfl⟩
  | some u =>
    cases netOk with
    | false =>
      exact ⟨{ cloud := cloud, log := [("Error deleting item from cloud: network")] },
        by simp [deleteItemFromCloud, deleteDoc]⟩
    | true =>
      exact ⟨{ cloud := cloudDelete cloud itemId, log := [] },
        by simp [deleteItemFromCloud, deleteDoc]⟩

/-- The index scan comparison is transitive. -/
theorem byCreatedAtAsc_trans (a b c : Item) :
    byCreatedAtAsc a b → byCreatedAtAsc b c → byCreatedAtAsc a c := by
  simp only [byCreatedAtAsc, decide_eq_true_eq]
  omega

/-- The index scan comparison is total. -/
theorem byCreatedAtAsc_total (a b : Item) :
    byCreatedAtAsc a b || byCreatedAtAsc b a := by
  simp only [byCreatedAtAsc, Bool.or_eq_true, decide_eq_true_eq]
  omega

/-- The list returned by `getAllItems` is ordered by descending
`createdAt`. -/
theorem getAllItems_pairwise (store : LocalStore) :
    (getAllItems store).Pairwise (fun a b => b.createdAt ≤ a.createdAt) := by
  unfold getAllItems
  rw [List.pairwise_reverse]
  have h := List.sorted_mergeSort byCreatedAtAsc_trans byCreatedAtAsc_total store
  exact h.imp (fun hab => by simpa [byCreatedAtAsc] using hab)

/-- `getAllItems` returns exactly the stored rows. -/
theorem getAllItems_perm (store : LocalStore) :
    (getAllItems store).Perm store := by
  unfold getAllItems
  exact (List.reverse_perm _).trans (List.mergeSort_perm store _)

/-- The empty needle is contained in every haystack. -/
theorem includesCL_nil_left (hay : List Char) : includesCL [] hay = true := by
  induction hay with
  | nil => rfl
  | cons c rest ih => simp [includesCL, startsWithCL]

/-- Concrete fixture: a sync environment with a logged-in user, clock
reading 0 and a healthy network. -/
def wEnv : SyncEnv :=
  { auth := some ("u"), now := 0, netOk := true }

/-- Concrete fixture: a logged-in environment whose remote calls fail. -/
def wEnvNetFail : SyncEnv :=
  { auth := some ("u"), now := 0, netOk := false }

/-- Concrete fixture: a logged-out environment. -/
def wEnvNoUser : SyncEnv :=
  { auth := none, now := 0, netOk := true }

/-- Concrete fixture: a minimal item. -/
def wItem : Item :=
  { id := "k", name := "Car Keys", createdAt := 3, labels := ["important"] }

/-- C3: for every Item `i`, `addItem i` followed by `getItemById i.id`
returns an Item equal to `i` - the local round-trip through the store
holds whatever the auth state and network outcome of the piggybacked
cloud push. -/
theorem addItem_roundtrip (env : SyncEnv) (s : Sys) (item : Item) :
    (addItem env s item).map (fun s2 => getItemById s2.store item.id) =
      .ok (some item) := by
  obtain ⟨r, hr⟩ := syncItemToCloud_isOk env s.cloud item
  unfold addItem
  rw [hr]
  simpa [Except.map, getItemById] using dbGet_dbPut s.store item

/-- C4: after any sequence of puts, `getAllItems` returns all stored
Items, ordered by descending `createdAt` (newest first). -/
theorem getAllItems_sorted_desc (puts : List Item) :
    ((getAllItems (putAll [] puts)).Pairwise
        (fun a b => b.createdAt ≤ a.createdAt)) ∧
      (getAllItems (putAll [] puts)).Perm (putAll [] puts) :=
  ⟨getAllItems_pairwise _, getAllItems_perm _⟩

/-- C5: `deleteItem` returns normally for every id, present or absent
(it is a no-op on the Local Store when the id is absent), and a
subsequent `getItemById` on that id yields an absent result rather than
an error. -/
theorem deleteItem_noop_then_notFound (env : SyncEnv) (s : Sys) (itemId : String) :
    (∃ s2, deleteItem env s itemId = .ok s2 ∧ getItemById s2.store itemId = none) ∧
      (getItemById s.store itemId = none →
        (deleteItem env s itemId).map Sys.store = .ok s.store) := by
  obtain ⟨r, hr⟩ := deleteItemFromCloud_isOk env s.cloud itemId
  constructor
  · refine ⟨{ store := dbDelete s.store itemId, cloud := r.cloud }, ?_, ?_⟩
    · unfold deleteItem
      rw [hr]
      rfl
    · simpa [getItemById] using dbGet_dbDelete s.store itemId
  · intro habsent
    unfold deleteItem
    rw [hr]
    simp only [Except.map]
    have hself : dbDelete s.store itemId = s.store := by
      unfold dbDelete
      rw [List.filter_eq_self]
      intro a ha
      have := List.find?_eq_none.mp habsent a ha
      simpa using this
    rw [hself]

/-- C5 witness: deleting an absent id from the empty store succeeds and
leaves the store unchanged. -/
theorem deleteItem_noop_then_notFound_witness :
    (∃ s2, deleteItem wEnv { store := [], cloud := [] } ("k") = .ok s2 ∧
        getItemById s2.store ("k") = none) ∧
      (deleteItem wEnv { store := [], cloud := [] } ("k")).map Sys.store =
        .ok ([] : LocalStore) :=
  ⟨(deleteItem_noop_then_notFound wEnv { store := [], cloud := [] } ("k")).1,
    (deleteItem_noop_then_notFound wEnv { store := [], cloud := [] } ("k")).2 rfl⟩

/-- C6: when the remote push or delete fails (network error, or no
authenticated user), the failure is swallowed: `syncItemToCloud` and
`deleteItemFromCloud` return normally with the remote collection
untouched, and `addItem`/`deleteItem` still complete with the local
mutation committed - nothing is rolled back. -/
theorem syncFailure_swallowed_local_retained (env : SyncEnv) (s : Sys)
    (item : Item) (itemId : String)
    (h : env.netOk = false ∨ env.auth = none) :
    (∃ r, syncItemToCloud env s.cloud item = .ok r ∧ r.cloud = s.cloud) ∧
      (∃ r, deleteItemFromCloud env s.cloud itemId = .ok r ∧ r.cloud = s.cloud) ∧
      addItem env s item = .ok { store := dbPut s.store item, cloud := s.cloud } ∧
      deleteItem env s itemId = .ok { store := dbDelete s.store itemId, cloud := s.cloud } := by
  rcases env with ⟨auth, now, netOk⟩
  rcases h with h | h
  · simp only at h
    subst h
    cases auth with
    | none =>
      exact ⟨⟨{ cloud := s.cloud, log := [("Cannot sync: User not logged in")] }, rfl, rfl⟩,
        ⟨{ cloud := s.cloud, log := [("Cannot delete from cloud: User not logged in")] }, rfl, rfl⟩,
        rfl, rfl⟩
    | some u =>
      refine
        ⟨⟨{ cloud := s.cloud, log := [("Error syncing item to cloud: network")] }, ?_, rfl⟩,
          ⟨{ cloud := s.cloud, log := [("Error deleting item from cloud: network")] }, ?_, rfl⟩,
          ?_, ?_⟩ <;>
        simp [syncItemToCloud, deleteItemFromCloud, setDoc, deleteDoc,
          addItem, deleteItem, Except.map]
  · simp only at h
    subst h
    exact ⟨⟨{ cloud := s.cloud, log := [("Cannot sync: User not logged in")] }, rfl, rfl⟩,
      ⟨{ cloud := s.cloud, log := [("Cannot delete from cloud: User not logged in")] }, rfl, rfl⟩,
      rfl, rfl⟩

/-- C6 witness: with a logged-in user and a failing network, a concrete
add still commits locally and the push failure is invisible. -/
theorem syncFailure_swallowed_local_retained_witness :
    (∃ r, syncItemToCloud wEnvNetFail [] wItem = .ok r ∧ r.cloud = []) ∧
      (∃ r, deleteItemFromCloud wEnvNetFail [] ("k") = .ok r ∧ r.cloud = []) ∧
      addItem wEnvNetFail { store := [], cloud := [] } wItem =
        .ok { store := dbPut [] wItem, cloud := [] } ∧
      deleteItem wEnvNetFail { store := [], cloud := [] } ("k") =
        .ok { store := dbDelete [] ("k"), cloud := [] } :=
  syncFailure_swallowed_local_retained wEnvNetFail { store := [], cloud := [] }
    wItem ("k") (Or.inl rfl)

/-- C7: with no authenticated user, every Cloud Mirror operation is a
no-op that logs a warning and returns normally: the two pushes leave the
collection untouched and return ok, and the subscribe call returns null
(after invoking its callback with null) instead of registering. -/
theorem noUser_ops_are_noops (env : SyncEnv) (cloud : CloudColl)
    (item : Item) (itemId : String) (h : env.auth = none) :
    syncItemToCloud env cloud item =
        .ok { cloud := cloud, log := [("Cannot sync: User not logged in")] } ∧
      deleteItemFromCloud env cloud itemId =
        .ok { cloud := cloud, log := [("Cannot delete from cloud: User not logged in")] } ∧
      listenToCloudChanges env cloud =
        { handle := none, callbackArg := some none,
          log := [("Cannot listen to cloud changes: User not logged in")] } := by
  rcases env with ⟨auth, now, netOk⟩
  simp only at h
  subst h
  exact ⟨rfl, rfl, rfl⟩

/-- C7 witness: the no-user no-op behaviour at a concrete state. -/
theorem noUser_ops_are_noops_witness :
    syncItemToCloud wEnvNoUser [] wItem =
        .ok { cloud := [], log := [("Cannot sync: User not logged in")] } ∧
      deleteItemFromCloud wEnvNoUser [] ("k") =
        .ok { cloud := [], log := [("Cannot delete from cloud: User not logged in")] } ∧
      listenToCloudChanges wEnvNoUser [] =
        { handle := none, callbackArg := some none,
          log := [("Cannot listen to cloud changes: User not logged in")] } :=
  noUser_ops_are_noops wEnvNoUser [] wItem ("k") rfl

/-- C10: `addItem` and `updateItem` are extensionally equal: both perform
the same insert-or-replace by id into the Local Store followed by the
same cloud push, so from any state they produce identical local and
remote effects. -/
theorem addItem_updateItem_extensionally_equal (env : SyncEnv) (s : Sys) (item : Item) :
    addItem env s item = updateItem env s item :=
  rfl

/-- Concrete fixture: a remote update of item "a" carrying the earlier
timestamp t1 = 1. -/
def cexDocT1 : CloudDoc :=
  { id := "a", name := "first", description := none, createdAt := 1,
    imageUrl := none, labels := [], audioUrl := none, audioTranscription := none,
    latitude := none, longitude := none, locationName := none, updatedAt := 1 }

/-- Concrete fixture: a remote update of the same item "a" carrying the
later timestamp t2 = 2 and a different name. -/
def cexDocT2 : CloudDoc :=
  { id := "a", name := "second", description := none, createdAt := 1,
    imageUrl := none, labels := [], audioUrl := none, audioTranscription := none,
    latitude := none, longitude := none, locationName := none, updatedAt := 2 }

/-- C1 counterexample: two updates to the same id with `updatedAt` 1 < 2,
arriving in the order t2 then t1, leave the Local Store holding the t1
version, not the t2 version - the reconciliation overwrites
unconditionally and never consults `updatedAt`. -/
theorem lww_timestamp_convergence_cex :
    cexDocT1.updatedAt < cexDocT2.updatedAt ∧
      cexDocT1.id = cexDocT2.id ∧
      getItemById (applyRemoteChange (applyRemoteChange [] cexDocT2) cexDocT1)
          (cexDocT2.id) ≠ some (docItem cexDocT2) := by
  refine ⟨by decide, rfl, by decide⟩

/-- C1 amended: applying two remote updates to the same id leaves the
Local Store holding the version that arrived last, whatever the two
`updatedAt` timestamps are; the store converges to the t2 version only
when the t2 update is the one applied last. -/
theorem applyRemoteChange_last_arrival_wins (store : LocalStore) (d1 d2 : CloudDoc)
    (h : d1.id = d2.id) :
    getItemById (applyRemoteChange (applyRemoteChange store d1) d2) (d1.id) =
        some (docItem d2) ∧
      getItemById (applyRemoteChange (applyRemoteChange store d2) d1) (d1.id) =
        some (docItem d1) := by
  constructor
  · rw [h]
    have hx := dbGet_dbPut (applyRemoteChange store d1) (docItem d2)
    simpa [applyRemoteChange, documentToItem, getItemById, docItem] using hx
  · have hx := dbGet_dbPut (applyRemoteChange store d2) (docItem d1)
    simpa [applyRemoteChange, documentToItem, getItemById, docItem] using hx

/-- C1 amended witness: the last-arrival-wins behaviour at the concrete
pair of updates. -/
theorem applyRemoteChange_last_arrival_wins_witness :
    getItemById (applyRemoteChange (applyRemoteChange [] cexDocT1) cexDocT2)
        (cexDocT1.id) = some (docItem cexDocT2) :=
  (applyRemoteChange_last_arrival_wins [] cexDocT1 cexDocT2 rfl).1

/-- Concrete fixture for the C2 counterexample: a logged-in environment
whose wall clock reads 5. -/
def cexEnv : SyncEnv :=
  { auth := some ("u"), now := 5, netOk := true }

/-- Concrete fixture: an item before a local mutation. -/
def cexItemV0 : Item :=
  { id := "a", name := "before", createdAt := 1, labels := [] }

/-- Concrete fixture: the same item after a local mutation (name
edited). -/
def cexItemV1 : Item :=
  { id := "a", name := "after", createdAt := 1, labels := [] }

/-- C2 counterexample: a genuine mutation of item "a" pushed while the
wall clock still reads the same value as at the previous push leaves the
cloud document's `updatedAt` unchanged (5 = 5) - `updatedAt` does not
strictly increase on every mutation.  (Locally the claim is not even
expressible: the Item record carries no `updatedAt` field at all.) -/
theorem updatedAt_not_strict_cex :
    cexItemV1 ≠ cexItemV0 ∧
      (cloudGet (exceptCloud (syncItemToCloud cexEnv
              (exceptCloud (syncItemToCloud cexEnv [] cexItemV0)) cexItemV1))
          ("a")).map CloudDoc.updatedAt =
        (cloudGet (exceptCloud (syncItemToCloud cexEnv [] cexItemV0))
            ("a")).map CloudDoc.updatedAt := by
  exact ⟨by decide, by decide⟩

/-- C2 amended: `createdAt` is carried through unchanged by every
mutation path in the code (the edit modal spreads the loaded item, the
cloud push copies it, and `documentToItem` copies it back); `updatedAt`
exists only on the cloud document, where each successful push stamps it
with the current wall-clock reading - no strict increase is enforced, and
nothing writes an `updatedAt` into the Local Store. -/
theorem createdAt_preserved_updatedAt_stamped
    (e : Item) (n d : String) (ls : List String)
    (env : SyncEnv) (cloud : CloudColl) (item : Item) (u : String) (dc : CloudDoc)
    (hAuth : env.auth = some u) (hNet : env.netOk = true) :
    (buildUpdatedItem e n d ls).createdAt = e.createdAt ∧
      (buildUpdatedItem e n d ls).id = e.id ∧
      (itemData env.now item).createdAt = item.createdAt ∧
      (itemData env.now item).updatedAt = env.now ∧
      (docItem dc).createdAt = dc.createdAt ∧
      (∃ r, syncItemToCloud env cloud item = .ok r ∧
        cloudGet r.cloud item.id = some (itemData env.now item)) := by
  refine ⟨rfl, rfl, rfl, rfl, rfl, ?_⟩
  rcases env with ⟨auth, now, netOk⟩
  simp only at hAuth hNet
  subst hAuth
  subst hNet
  exact ⟨{ cloud := cloudPut cloud item.id (itemData now item), log := [] },
    by simp [syncItemToCloud, setDoc],
    cloudGet_cloudPut cloud item.id (itemData now item)⟩

/-- C2 amended witness: a concrete successful push lands the document
with the pushed item's `createdAt` and the clock reading as `updatedAt`. -/
theorem createdAt_preserved_updatedAt_stamped_witness :
    ∃ r, syncItemToCloud cexEnv [] wItem = .ok r ∧
      cloudGet r.cloud wItem.id = some (itemData cexEnv.now wItem) :=
  (createdAt_preserved_updatedAt_stamped wItem ("n") ("") [] cexEnv [] wItem ("u")
      (itemData 0 wItem) rfl rfl).2.2.2.2.2

/-- C8: `searchItems` returns exactly the items of `getAllItems` whose
name or description contains the query as a case-insensitive substring,
in `getAllItems` order, and `getItemsByLabel` returns exactly the items
of `getAllItems` whose labels contain the label - both are pure read-side
filters (they are functions of the store and return a list, leaving the
store untouched). -/
theorem search_and_byLabel_pure_filters (store : LocalStore) (q label : String) :
    searchItems store q = (getAllItems store).filter (specSearchMatch q) ∧
      getItemsByLabel store label =
        (getAllItems store).filter (fun i => i.labels.contains label) := by
  constructor
  · unfold searchItems
    apply List.filter_congr
    intro i _
    cases hd : i.description with
    | none => simp [specSearchMatch, hd]
    | some d =>
      by_cases hde : d = ""
      · subst hde
        simp only [specSearchMatch, hd, if_pos rfl]
        cases hql : (jsToLowerCase q).data with
        | nil =>
          have hname : includesStr (jsToLowerCase i.name) (jsToLowerCase q) = true := by
            unfold includesStr
            rw [hql]
            exact includesCL_nil_left _
          simp [hname]
        | cons c cs =>
          have hdesc : includesStr (jsToLowerCase ("")) (jsToLowerCase q) = false := by
            unfold includesStr
            rw [hql]
            rfl
          simp [hdesc]
      · simp [specSearchMatch, hd, hde]
  · rfl

/-- C9: for nonnegative distances, `formatDistance` renders meters below
1 km, one-decimal kilometers from 1 km up to 10 km, and whole kilometers
from 10 km on; in particular 0.5 renders as "500 m", 1.2 as "1.2 km" and
55 as "55 km". -/
theorem formatDistance_branches :
    (∀ dist : ℚ, 0 ≤ dist →
      (dist < 1 → formatDistance dist = renderMeters dist) ∧
        (1 ≤ dist → dist < 10 → formatDistance dist = renderKmOneDecimal dist) ∧
        (10 ≤ dist → formatDistance dist = renderKmWhole dist)) ∧
      formatDistance (1/2) = "500 m" ∧
      formatDistance (6/5) = "1.2 km" ∧
      formatDistance (55) = "55 km" := by
  refine ⟨fun dist hd => ⟨fun h1 => ?_, fun h1 h2 => ?_, fun h1 => ?_⟩, ?_, ?_, ?_⟩
  · rw [formatDistance, if_pos h1]
    rfl
  · rw [formatDistance, if_neg (not_lt.mpr h1), if_pos h2]
    rfl
  · rw [formatDistance, if_neg (not_lt.mpr (by linarith)), if_neg (not_lt.mpr h1)]
    rfl
  · have h : ((1 : ℚ)/2) < 1 := by norm_num
    have h2 : jsRound ((1 : ℚ)/2 * 1000) = 500 := by
      unfold jsRound
      norm_num
    rw [formatDistance, if_pos h, h2]
    decide
  · have h1 : ¬ ((6 : ℚ)/5) < 1 := by norm_num
    have h2 : ((6 : ℚ)/5) < 10 := by norm_num
    have h3 : (⌊(6 : ℚ)/5 * 10 + 1/2⌋ : ℤ) = 12 := by norm_num
    rw [formatDistance, if_neg h1, if_pos h2, toFixed1, h3]
    decide
  · have h1 : ¬ (55 : ℚ) < 1 := by norm_num
    have h2 : ¬ (55 : ℚ) < 10 := by norm_num
    have h3 : jsRound (55 : ℚ) = 55 := by
      unfold jsRound
      norm_num
    rw [formatDistance, if_neg h1, if_neg h2, h3]
    decide

/-- C9 witness: the meters branch applied at 0.5 km. -/
theorem formatDistance_branches_witness :
    formatDistance (1/2) = renderMeters (1/2) :=
  (formatDistance_branches.1 (1/2) (by norm_num)).1 (by norm_num)

end MemoryAssistant
